import Mathlib

/-!
# The Raft simulation harness of `src/unittest/clustering_raft.cc`

A shallow embedding of `dummy_raft_state_t` and `dummy_raft_cluster_t`
(with its private `member_info_t`), followed by theorems about them.

Conventions of the embedding.

* `uuid_u` / `raft_member_id_t` are natural numbers; `nil_uuid` is `0`.
* `std::set<raft_member_id_t>` is a list kept in increasing order without
  repetition (`set_insert`, `set_erase`); `std::map<raft_member_id_t, V>` is an
  association list kept in increasing key order (`map_at`, `map_assign`).
* `raft_member_t`, `raft_persistent_state_t` and `raft_config_t` come from
  `clustering/generic/raft_core.hpp`, which is not among the sources.  The
  persistent state is a type parameter `P`, the member a type parameter `M`,
  and the member functions the harness calls are the fields of
  `raft_core`.
* The harness runs on cooperative coroutines.  Every member function is
  embedded as one atomic transition of the cluster state: no other coroutine
  runs between its steps.  Where a claim is about a suspension point, the
  caller supplies what happens there: a call of `block` gets what it draws and
  whether its interruptor is pulsed (`block_env`), so that it may raise
  `interrupted_exc_t`; a read-lock acquisition of `check_invariants` gets the
  cluster state in which the lock is granted (`acq_env`).  For `set_live`,
  `set_live_states` also lists the state after each single write, which is
  what another coroutine can see if `set_live` is suspended.
-/

namespace unittest

/-! ## Identifiers and containers -/

/-- A `uuid_u`. -/
abbrev uuid_u := Nat

/-- A `raft_member_id_t` is a `uuid_u`. -/
abbrev raft_member_id_t := uuid_u

/-- The nil UUID returned by `nil_uuid()`. -/
def nil_uuid : uuid_u := 0

/-- The test `uuid_u::is_nil()`. -/
def is_nil (u : uuid_u) : Bool := u == nil_uuid

/-- The call `std::set::insert`: ordered insertion, a key already present is kept once. -/
def set_insert (a : raft_member_id_t) : List raft_member_id_t → List raft_member_id_t
  | [] => [a]
  | b :: s =>
    if a < b then a :: b :: s
    else if a = b then b :: s
    else b :: set_insert a s

/-- The call `std::set::erase(key)`: removes the key if present. -/
def set_erase (a : raft_member_id_t) (s : List raft_member_id_t) : List raft_member_id_t :=
  s.filter (fun b => decide (b ≠ a))

/-- The lookup `std::map::at`: `none` stands for `std::out_of_range`. -/
def map_at {V : Type} : List (raft_member_id_t × V) → raft_member_id_t → Option V
  | [], _ => none
  | (k1, v) :: m, k => if k1 = k then some v else map_at m k

/-- The assignment `m[k] = v` of `std::map`: replaces the value of an existing key, or
inserts the pair at its place in key order.  It is also used for a write through the
pointer `members.at(k).get()`. -/
def map_assign {V : Type} (k : raft_member_id_t) (v : V) :
    List (raft_member_id_t × V) → List (raft_member_id_t × V)
  | [] => [(k, v)]
  | (k1, v1) :: m =>
    if k < k1 then (k, v) :: (k1, v1) :: m
    else if k = k1 then (k, v) :: m
    else (k1, v1) :: map_assign k v m

/-! ## `dummy_raft_state_t` -/

/-- The class `dummy_raft_state_t`: a vector of the changes applied so far. -/
structure dummy_raft_state_t where
  state : List uuid_u
  deriving DecidableEq, Repr

/-- The method `dummy_raft_state_t::apply_change`: `state.push_back(uuid)`. -/
def dummy_raft_state_t.apply_change (s : dummy_raft_state_t) (uuid : uuid_u) :
    dummy_raft_state_t :=
  { state := s.state ++ [uuid] }

/-- The method `dummy_raft_state_t::operator==`: `state == other.state`. -/
def dummy_raft_state_t.eq (s other : dummy_raft_state_t) : Bool :=
  decide (s.state = other.state)

/-- The method `dummy_raft_state_t::operator!=`: `state != other.state`. -/
def dummy_raft_state_t.ne (s other : dummy_raft_state_t) : Bool :=
  decide (s.state ≠ other.state)

/-- A default-constructed `dummy_raft_state_t`: the vector is empty. -/
def dummy_raft_state_t.fresh : dummy_raft_state_t := { state := [] }

/-- Applying a sequence of changes in order, one `apply_change` per change. -/
def apply_changes (s : dummy_raft_state_t) (changes : List uuid_u) : dummy_raft_state_t :=
  changes.foldl dummy_raft_state_t.apply_change s

/-! ## `dummy_raft_cluster_t` -/

/-- The enum `dummy_raft_cluster_t::live_t`. -/
inductive live_t
  | alive
  | isolated
  | dead
  deriving DecidableEq, Repr

/-- An `auto_drainer_t` object; the harness only tests whether a slot holds one. -/
inductive auto_drainer_t
  | mk
  deriving DecidableEq, Repr

/-- A `member_info_t *`: slots live in the `members` map, so a pointer to a slot is
identified by the key under which the map holds it. -/
structure member_info_ptr where
  key : raft_member_id_t
  deriving DecidableEq, Repr

/-- The fields of `member_info_t` other than `parent` (passed explicitly) and `lock`
(its holders are not part of the state; a wait for it is described by `acq_env`). -/
structure member_info_t (P M : Type) where
  member_id : raft_member_id_t
  stored_state : P
  member : Option M
  drainer : Option auto_drainer_t
  deriving DecidableEq, Repr

/-- The fields `members` and `alive_members` of `dummy_raft_cluster_t`. -/
structure dummy_raft_cluster_t (P M : Type) where
  members : List (raft_member_id_t × member_info_t P M)
  alive_members : List raft_member_id_t
  deriving DecidableEq, Repr

/-- The struct `raft_config_t`, of which the harness fills `voting_members`. -/
structure raft_config_t where
  voting_members : List raft_member_id_t
  deriving DecidableEq, Repr

/-- The part of `raft_core.hpp` that the harness calls: the constructor
`raft_member_t(member_id, interface, persistent_state)`, `raft_member_t::get_leader()`,
and the static functions `raft_persistent_state_t::make_initial` and `make_join`. -/
structure raft_core (P M : Type) where
  construct : raft_member_id_t → member_info_ptr → P → M
  get_leader : M → raft_member_id_t
  make_initial : dummy_raft_state_t → raft_config_t → P
  make_join : P

variable {P M : Type}

/-- First block of `set_live`: when the slot has a drainer and the target is not
`alive`, erase the id from `alive_members` and destroy the drainer. -/
def set_live_drain (member_id : raft_member_id_t) (live : live_t)
    (st : member_info_t P M × List raft_member_id_t) :
    member_info_t P M × List raft_member_id_t :=
  if st.1.drainer.isSome = true ∧ live ≠ live_t.alive then
    ({ st.1 with drainer := none }, set_erase member_id st.2)
  else st

/-- Second block of `set_live`, under the write lock: destroy the member when the
target is `dead`, create it from `(member_id, i, i->stored_state)` when it is missing
and the target is not `dead`. -/
def set_live_member (api : raft_core P M) (member_id : raft_member_id_t)
    (live : live_t) (i : member_info_t P M) : member_info_t P M :=
  let i1 : member_info_t P M :=
    if i.member.isSome = true ∧ live = live_t.dead then { i with member := none } else i
  if i1.member.isSome = false ∧ live ≠ live_t.dead then
    { i1 with member := some (api.construct member_id ⟨member_id⟩ i1.stored_state) }
  else i1

/-- Third block of `set_live`: when the slot has no drainer and the target is `alive`,
create a drainer and insert the id into `alive_members`. -/
def set_live_install (member_id : raft_member_id_t) (live : live_t)
    (st : member_info_t P M × List raft_member_id_t) :
    member_info_t P M × List raft_member_id_t :=
  if st.1.drainer.isSome = false ∧ live = live_t.alive then
    ({ st.1 with drainer := some auto_drainer_t.mk }, set_insert member_id st.2)
  else st

/-- The body of `set_live` on the slot `i = members.at(member_id).get()` and the set
held by `alive_members`: its three blocks in order. -/
def set_live_body (api : raft_core P M) (member_id : raft_member_id_t) (live : live_t)
    (st : member_info_t P M × List raft_member_id_t) :
    member_info_t P M × List raft_member_id_t :=
  let s1 := set_live_drain member_id live st
  let i2 := set_live_member api member_id live s1.1
  set_live_install member_id live (i2, s1.2)

/-- The method `dummy_raft_cluster_t::set_live`; `none` when `members.at(member_id)`
throws. -/
def set_live (api : raft_core P M) (c : dummy_raft_cluster_t P M)
    (member_id : raft_member_id_t) (live : live_t) : Option (dummy_raft_cluster_t P M) :=
  match map_at c.members member_id with
  | none => none
  | some i =>
    let s := set_live_body api member_id live (i, c.alive_members)
    some { members := map_assign member_id s.1 c.members, alive_members := s.2 }

/-- The slot and the set after each write of the first block of `set_live`, in program
order: `alive_set->erase(member_id)`, then the swap that empties `i->drainer` (the
drainer itself is destroyed by `dummy.reset()`, with the slot already empty). -/
def set_live_drain_steps (member_id : raft_member_id_t) (live : live_t)
    (st : member_info_t P M × List raft_member_id_t) :
    List (member_info_t P M × List raft_member_id_t) :=
  if st.1.drainer.isSome = true ∧ live ≠ live_t.alive then
    [(st.1, set_erase member_id st.2), ({ st.1 with drainer := none }, set_erase member_id st.2)]
  else []

/-- The slot after each write of the second block of `set_live`, in program order:
`i->member.reset()`, then `i->member.init(...)`. -/
def set_live_member_steps (api : raft_core P M) (member_id : raft_member_id_t)
    (live : live_t) (i : member_info_t P M) : List (member_info_t P M) :=
  let d : List (member_info_t P M) :=
    if i.member.isSome = true ∧ live = live_t.dead then [{ i with member := none }] else []
  let i1 : member_info_t P M := d.getLastD i
  let n : List (member_info_t P M) :=
    if i1.member.isSome = false ∧ live ≠ live_t.dead then
      [{ i1 with member := some (api.construct member_id ⟨member_id⟩ i1.stored_state) }]
    else []
  d ++ n

/-- The slot and the set after each write of the third block of `set_live`, in program
order: `i->drainer.init(...)`, then `alive_set->insert(member_id)`. -/
def set_live_install_steps (member_id : raft_member_id_t) (live : live_t)
    (st : member_info_t P M × List raft_member_id_t) :
    List (member_info_t P M × List raft_member_id_t) :=
  if st.1.drainer.isSome = false ∧ live = live_t.alive then
    [({ st.1 with drainer := some auto_drainer_t.mk }, st.2),
     ({ st.1 with drainer := some auto_drainer_t.mk }, set_insert member_id st.2)]
  else []

/-- The slot and the set after each write of `set_live`, in program order: the writes of
its three blocks, each block starting from what the one before left. -/
def set_live_trace (api : raft_core P M) (member_id : raft_member_id_t) (live : live_t)
    (st : member_info_t P M × List raft_member_id_t) :
    List (member_info_t P M × List raft_member_id_t) :=
  let b1 := set_live_drain_steps member_id live st
  let s1 := b1.getLastD st
  let b2 := (set_live_member_steps api member_id live s1.1).map (fun i => (i, s1.2))
  let s2 := b2.getLastD s1
  let b3 := set_live_install_steps member_id live s2
  b1 ++ b2 ++ b3

/-- The cluster states that a call of `set_live` passes through: the state it starts
from, then the state after each of its writes; these are the states another coroutine
can see while `set_live` is suspended.  `none` when `members.at(member_id)` throws. -/
def set_live_states (api : raft_core P M) (c : dummy_raft_cluster_t P M)
    (member_id : raft_member_id_t) (live : live_t) :
    Option (List (dummy_raft_cluster_t P M)) :=
  match map_at c.members member_id with
  | none => none
  | some i =>
    some (c :: (set_live_trace api member_id live (i, c.alive_members)).map (fun s =>
      { members := map_assign member_id s.1 c.members, alive_members := s.2 }))

/-- Every slot of the cluster that has a drainer has a member. -/
def drainer_has_member (c : dummy_raft_cluster_t P M) : Prop :=
  ∀ k j, map_at c.members k = some j → j.drainer.isSome = true → j.member.isSome = true

/-- Between a slot `j` and the same slot `j2` one write later: a member is destroyed only
when the drainer is already gone, and a drainer is installed only when the member is
already there. -/
def ordered_write (j j2 : member_info_t P M) : Prop :=
  (j.member.isSome = true → j2.member = none → j.drainer = none) ∧
    (j.drainer = none → j2.drainer.isSome = true → j.member.isSome = true)

/-- The method `dummy_raft_cluster_t::add_member`: a fresh slot is stored under
`member_id`, then `set_live(member_id, alive)`. -/
def add_member (api : raft_core P M) (c : dummy_raft_cluster_t P M)
    (member_id : raft_member_id_t) (initial_state : P) : Option (dummy_raft_cluster_t P M) :=
  let i : member_info_t P M :=
    { member_id := member_id, stored_state := initial_state, member := none, drainer := none }
  set_live api { c with members := map_assign member_id i c.members } member_id live_t.alive

/-- The constructor `dummy_raft_cluster_t(num, initial_state, member_ids_out)`;
`generate_uuid k` is the value of the call of `generate_uuid()` in round `k` of the
first loop. -/
def dummy_raft_cluster_t.create (api : raft_core P M) (num : Nat)
    (initial_state : dummy_raft_state_t) (generate_uuid : Nat → raft_member_id_t) :
    Option (dummy_raft_cluster_t P M) :=
  let initial_config : raft_config_t :=
    { voting_members :=
        ((List.range num).map generate_uuid).foldl (fun s member_id => set_insert member_id s) [] }
  initial_config.voting_members.foldlM
    (fun c member_id => add_member api c member_id (api.make_initial initial_state initial_config))
    { members := [], alive_members := [] }

/-- The method `dummy_raft_cluster_t::join`; `member_id` is the value of its call of
`generate_uuid()`.  Returns the new cluster state and the id. -/
def join (api : raft_core P M) (c : dummy_raft_cluster_t P M) (member_id : raft_member_id_t) :
    Option (dummy_raft_cluster_t P M × raft_member_id_t) :=
  (add_member api c member_id api.make_join).map (fun c1 => (c1, member_id))

/-- The method `member_info_t::get_connected_members`: the watchable over
`parent->alive_members`, read at the current state. -/
def get_connected_members (parent : dummy_raft_cluster_t P M) : List raft_member_id_t :=
  parent.alive_members

/-- The cluster states reached from the constructor by completed calls of `set_live`
and `join`. -/
inductive reachable (api : raft_core P M) : dummy_raft_cluster_t P M → Prop
  | create (num : Nat) (initial_state : dummy_raft_state_t)
      (generate_uuid : Nat → raft_member_id_t) (c : dummy_raft_cluster_t P M) :
      dummy_raft_cluster_t.create api num initial_state generate_uuid = some c →
      reachable api c
  | set_live (c c1 : dummy_raft_cluster_t P M) (member_id : raft_member_id_t) (live : live_t) :
      reachable api c → set_live api c member_id live = some c1 → reachable api c1
  | join (c c1 : dummy_raft_cluster_t P M) (member_id : raft_member_id_t) :
      reachable api c → join api c member_id = some (c1, member_id) → reachable api c1

/-! ## Blocking, persistence and RPC -/

/-- The exceptions that leave the embedded functions. -/
inductive exc_t
  | interrupted_exc_t
  | out_of_range
  deriving DecidableEq, Repr

/-- The outcome of a call: a returned value or a raised exception. -/
inductive outcome (α : Type)
  | returned (a : α)
  | raised (e : exc_t)
  deriving DecidableEq, Repr

/-- A `signal_t *` used by the harness: an interruptor supplied by the caller, or the
drain signal of the drainer currently held by a slot. -/
inductive signal_t
  | interruptor (n : Nat)
  | drain_signal (slot : raft_member_id_t)
  deriving DecidableEq, Repr

/-- What one call of `block` draws from its environment: the three `randint` values and,
for each signal, whether it is pulsed when the timer wait is over. -/
structure block_env where
  yield_draw : Nat
  sleep_draw : Nat
  timer_ms : Nat
  pulsed : signal_t → Bool

/-- Modelled from the spec: `wait_interruptible` (concurrency library, not among the
sources).  Section 5: every blocking operation takes an interruptor and "cancellation
surfaces as an `interrupted` error". -/
def wait_interruptible (interruptor_pulsed : Bool) : outcome Unit :=
  if interruptor_pulsed then outcome.raised exc_t.interrupted_exc_t else outcome.returned ()

/-- The method `member_info_t::block`: the yield leaves the state alone; the timer wait
is entered when the second `randint(10)` is zero. -/
def block (e : block_env) (interruptor : signal_t) : outcome Unit :=
  if e.sleep_draw = 0 then wait_interruptible (e.pulsed interruptor) else outcome.returned ()

/-- The method `member_info_t::write_persistent_state` on the slot `self`; `e1` and `e2`
are the environments of its two calls of `block`.  Returns the outcome and the slot. -/
def write_persistent_state (self : member_info_t P M) (persistent_state : P)
    (interruptor : signal_t) (e1 e2 : block_env) : outcome Unit × member_info_t P M :=
  match block e1 interruptor with
  | outcome.raised x => (outcome.raised x, self)
  | outcome.returned _ =>
    let self1 : member_info_t P M := { self with stored_state := persistent_state }
    match block e2 interruptor with
    | outcome.raised x => (outcome.raised x, self1)
    | outcome.returned _ => (outcome.returned (), self1)

/-- What a call of `do_rpc` did: its outcome and the invocations of the handler `fun`,
each with the member pointer (`other->member.get()`, possibly null) and the signal
passed. -/
structure rpc_run (M : Type) where
  result : outcome Bool
  calls : List (Option M × signal_t)
  deriving DecidableEq, Repr

/-- The method `member_info_t::do_rpc`, called on the sending slot `self` with
`parent` the cluster.  `send_request_vote_rpc`, `send_install_snapshot_rpc` and
`send_append_entries_rpc` each pass a handler `fn` calling the matching `on_..._rpc` of
the destination member.  `e1` is the environment of the first `block`, `e2` of the
second one executed. -/
def do_rpc (parent : dummy_raft_cluster_t P M) (_self : member_info_t P M)
    (dest : raft_member_id_t) (fn : Option M → signal_t → outcome Unit)
    (interruptor : signal_t) (e1 e2 : block_env) : rpc_run M :=
  match block e1 interruptor with
  | outcome.raised x => { result := outcome.raised x, calls := [] }
  | outcome.returned _ =>
    match map_at parent.members dest with
    | none => { result := outcome.raised exc_t.out_of_range, calls := [] }
    | some other =>
      if other.drainer.isSome = true then
        let keepalive : signal_t := signal_t.drain_signal dest
        let calls : List (Option M × signal_t) := [(other.member, keepalive)]
        let body : outcome Unit :=
          match fn other.member keepalive with
          | outcome.raised x => outcome.raised x
          | outcome.returned _ => block e2 keepalive
        match body with
        | outcome.raised exc_t.interrupted_exc_t => { result := outcome.returned false, calls := calls }
        | outcome.raised x => { result := outcome.raised x, calls := calls }
        | outcome.returned _ => { result := outcome.returned true, calls := calls }
      else
        match block e2 interruptor with
        | outcome.raised x => { result := outcome.raised x, calls := [] }
        | outcome.returned _ => { result := outcome.returned false, calls := [] }

/-! ## Client operations and the invariant checker -/

/-- The method `dummy_raft_cluster_t::run_on_member`: `fn` receives the member, or the
null pointer when the slot has none; `none` when `members.at(member_id)` throws. -/
def run_on_member {α : Type} (c : dummy_raft_cluster_t P M) (member_id : raft_member_id_t)
    (fn : Option M → α) : Option α :=
  match map_at c.members member_id with
  | none => none
  | some i =>
    match i.member with
    | some m => some (fn (some m))
    | none => some (fn none)

/-- What `try_change` is seen to do, in order. -/
inductive event
  | get_leader (slot answer : raft_member_id_t)
  | null_member (slot : raft_member_id_t)
  | propose (slot : raft_member_id_t) (change : uuid_u)
  | out_of_range (slot : raft_member_id_t)
  deriving DecidableEq, Repr

/-- Whether an event is a call of `get_leader()`. -/
def event.is_get_leader : event → Bool
  | event.get_leader _ _ => true
  | _ => false

/-- Whether an event is a call of `propose_change_if_leader`. -/
def event.is_propose : event → Bool
  | event.propose _ _ => true
  | _ => false

/-- The slot an event happened on. -/
def event.on_slot : event → raft_member_id_t
  | event.get_leader k _ => k
  | event.null_member k => k
  | event.propose k _ => k
  | event.out_of_range k => k

/-- The first loop of `try_change`: the key of the last slot, in map order, that has a
drainer; `nil_uuid` when there is none. -/
def find_alive (c : dummy_raft_cluster_t P M) : raft_member_id_t :=
  c.members.foldl (fun leader pair => if pair.2.drainer.isSome = true then pair.1 else leader)
    nil_uuid

/-- The function that the loop of `try_change` passes to `run_on_member`: it sets
`new_leader` to nil for a null member and to `member->get_leader()` otherwise.  Returns
`new_leader` and the event. -/
def ask_leader (api : raft_core P M) (leader : raft_member_id_t) (member : Option M) :
    raft_member_id_t × event :=
  match member with
  | none => (nil_uuid, event.null_member leader)
  | some m => (api.get_leader m, event.get_leader leader (api.get_leader m))

/-- The `while (true)` loop of `try_change`, from the values of `max_redirects` and
`leader` at the top of an iteration.  Returns the events and, when the loop is left by
`break`, the leader found. -/
def follow_redirects (api : raft_core P M) (c : dummy_raft_cluster_t P M) :
    Nat → raft_member_id_t → List event × Option raft_member_id_t
  | max_redirects, leader =>
    if is_nil leader = true then ([], none)
    else
      match run_on_member c leader (ask_leader api leader) with
      | none => ([event.out_of_range leader], none)
      | some (new_leader, ev) =>
        if leader = new_leader then ([ev], some leader)
        else
          match max_redirects with
          | 0 => ([ev], none)
          | n + 1 =>
            let r := follow_redirects api c n new_leader
            (ev :: r.1, r.2)

/-- The method `dummy_raft_cluster_t::try_change`, as the list of its events. -/
def try_change (api : raft_core P M) (c : dummy_raft_cluster_t P M) (change : uuid_u) :
    List event :=
  let r := follow_redirects api c 2 (find_alive c)
  match r.2 with
  | none => r.1
  | some leader =>
    match run_on_member c leader (fun member =>
        match member with
        | some _ => [event.propose leader change]
        | none => []) with
    | none => r.1 ++ [event.out_of_range leader]
    | some evs => r.1 ++ evs

/-- What `check_invariants` has at hand when it calls
`dummy_raft_member_t::check_invariants(member_ptrs)`: the pointers inserted into
`member_ptrs`, each the value of `pair.second->member.get()` and so `none` for a null
pointer, and the keys of the slots whose lock is held in read mode by `rwlock_acqs`. -/
structure invariant_check (M : Type) where
  member_ptrs : List (Option M)
  rwlock_acqs : List raft_member_id_t
  deriving DecidableEq, Repr

/-- What the other coroutines do while `check_invariants` waits for a read lock:
`granted k c` is the cluster state in which the lock of slot `k` is granted, when the
wait began in state `c`.  It is `c` itself when the lock is free. -/
structure acq_env (P M : Type) where
  granted : raft_member_id_t → dummy_raft_cluster_t P M → dummy_raft_cluster_t P M

/-- Modelled from the spec: the blocking constructor
`rwlock_acq_t(&lock, access_t::read)` (concurrency library, not among the sources).
Section 5 lists "the invariant checker's lock acquisitions" among the suspension points:
other coroutines run until the lock is granted, and the caller goes on in the state they
left. -/
def rwlock_acq_read (env : acq_env P M) (k : raft_member_id_t) (c : dummy_raft_cluster_t P M) :
    dummy_raft_cluster_t P M :=
  env.granted k c

/-- The loop of `check_invariants` over the keys still to visit, from the current
cluster state: `pair.second->member.has()` is tested first, then the read lock is
acquired, then `pair.second->member.get()` is read in the state the acquisition returns
to.  Returns the state at the end of the loop and what was collected. -/
def check_invariants_loop (env : acq_env P M) :
    List raft_member_id_t → dummy_raft_cluster_t P M → invariant_check M →
      dummy_raft_cluster_t P M × invariant_check M
  | [], c, acc => (c, acc)
  | k :: ks, c, acc =>
    match map_at c.members k with
    | none => check_invariants_loop env ks c acc
    | some i =>
      if i.member.isSome = true then
        let c1 := rwlock_acq_read env k c
        check_invariants_loop env ks c1
          { rwlock_acqs := acc.rwlock_acqs ++ [k],
            member_ptrs := acc.member_ptrs ++ [(map_at c1.members k).bind (fun i1 => i1.member)] }
      else check_invariants_loop env ks c acc

/-- The method `dummy_raft_cluster_t::check_invariants`, up to its call of
`dummy_raft_member_t::check_invariants`: the cluster state at that call and what is
handed over.  The loop visits the keys that the map has when it starts; no code of the
harness erases a key, and a `join` during one of the waits is left out. -/
def check_invariants (env : acq_env P M) (c : dummy_raft_cluster_t P M) :
    dummy_raft_cluster_t P M × invariant_check M :=
  check_invariants_loop env (c.members.map Prod.fst) c { member_ptrs := [], rwlock_acqs := [] }

/-! ## A concrete instance, for evaluating the definitions -/

/-- A member that records the arguments of its constructor. -/
structure sample_member where
  this_member_id : raft_member_id_t
  interface : member_info_ptr
  persistent_state : Nat
  deriving DecidableEq, Repr

/-- An instance of `raft_core` in which the persistent state is a number that the
member reports as its leader. -/
def sample_core : raft_core Nat sample_member where
  construct := fun member_id i ps =>
    { this_member_id := member_id, interface := i, persistent_state := ps }
  get_leader := fun m => m.persistent_state
  make_initial := fun _ config => config.voting_members.headD 0
  make_join := 0

/-- A slot for examples, with `stored_state` the number `ps`. -/
def sample_slot (member_id : raft_member_id_t) (ps : Nat) (has_member has_drainer : Bool) :
    member_info_t Nat sample_member :=
  { member_id := member_id, stored_state := ps,
    member := if has_member then some (sample_core.construct member_id ⟨member_id⟩ ps) else none,
    drainer := if has_drainer then some auto_drainer_t.mk else none }

/-- Two alive members `1` and `2`, each naming the other as leader. -/
def two_alive : dummy_raft_cluster_t Nat sample_member :=
  { members := [(1, sample_slot 1 2 true true), (2, sample_slot 2 1 true true)],
    alive_members := [1, 2] }

/-- The cluster that the constructor builds over `sample_core` from the ids `1` and `2`:
both members name `1` as leader. -/
def built_pair : dummy_raft_cluster_t Nat sample_member :=
  { members := [(1, sample_slot 1 1 true true), (2, sample_slot 2 1 true true)],
    alive_members := [1, 2] }

/-- The cluster `built_pair` after `set_live(1, isolated)`. -/
def one_isolated : dummy_raft_cluster_t Nat sample_member :=
  { members := [(1, sample_slot 1 1 true false), (2, sample_slot 2 1 true true)],
    alive_members := [2] }

/-- Three alive members: `2` and `3` name the next one, `1` names itself. -/
def chain_to_one : dummy_raft_cluster_t Nat sample_member :=
  { members := [(1, sample_slot 1 1 true true), (2, sample_slot 2 1 true true),
      (3, sample_slot 3 2 true true)],
    alive_members := [1, 2, 3] }

/-- The cluster `built_pair` while `set_live(1, dead)` is under way: the drainer of `1`
is gone, its member is still there. -/
def dying_one : dummy_raft_cluster_t Nat sample_member :=
  { members := [(1, sample_slot 1 1 true false), (2, sample_slot 2 1 true true)],
    alive_members := [2] }

/-- The cluster `built_pair` after `set_live(1, dead)`. -/
def dead_one : dummy_raft_cluster_t Nat sample_member :=
  { members := [(1, sample_slot 1 1 false false), (2, sample_slot 2 1 true true)],
    alive_members := [2] }

/-- No lock is ever waited for. -/
def no_wait : acq_env P M :=
  { granted := fun _ c => c }

/-- A `set_live(1, dead)` that stands in line for the write lock of slot `1` runs to its
end while the read lock of slot `1` is waited for; the other locks are free. -/
def kill_one_in_wait : acq_env Nat sample_member :=
  { granted := fun k c => if k = 1 then (set_live sample_core c 1 live_t.dead).getD c else c }

/-- An environment of `block` in which no timer wait happens. -/
def calm : block_env :=
  { yield_draw := 1, sleep_draw := 1, timer_ms := 0, pulsed := fun _ => false }

/-- An environment of `block` in which the timer wait happens and every signal is pulsed. -/
def stormy : block_env :=
  { yield_draw := 1, sleep_draw := 0, timer_ms := 5, pulsed := fun _ => true }

/-! ## Containers: lookup after assignment, membership after insert and erase -/

theorem map_at_assign_self {V : Type} (k : raft_member_id_t) (v : V)
    (m : List (raft_member_id_t × V)) : map_at (map_assign k v m) k = some v := by
  induction m with
  | nil => simp [map_assign, map_at]
  | cons hd tl ih =>
    obtain ⟨k1, v1⟩ := hd
    unfold map_assign
    by_cases h1 : k < k1
    · simp [h1, map_at]
    · by_cases h2 : k = k1
      · simp [h2, map_at]
      · have h3 : ¬ k1 = k := fun h => h2 h.symm
        simp [h1, h2, h3, map_at, ih]

theorem map_at_assign_ne {V : Type} (k k2 : raft_member_id_t) (v : V)
    (m : List (raft_member_id_t × V)) (h : k2 ≠ k) :
    map_at (map_assign k v m) k2 = map_at m k2 := by
  have hk : ¬ k = k2 := fun e => h e.symm
  induction m with
  | nil => simp [map_assign, map_at, hk]
  | cons hd tl ih =>
    obtain ⟨k1, v1⟩ := hd
    unfold map_assign
    by_cases h1 : k < k1
    · simp [h1, map_at, hk]
    · by_cases h2 : k = k1
      · subst h2
        simp [map_at, hk]
      · simp only [h1, h2, if_false, map_at, ih]

theorem mem_set_insert (a x : raft_member_id_t) (s : List raft_member_id_t) :
    x ∈ set_insert a s ↔ x = a ∨ x ∈ s := by
  induction s with
  | nil => simp [set_insert]
  | cons b tl ih =>
    unfold set_insert
    by_cases h1 : a < b
    · simp [h1]
    · by_cases h2 : a = b
      · subst h2
        simp
      · simp only [h1, h2, if_false, List.mem_cons, ih]
        tauto

theorem mem_set_erase (a x : raft_member_id_t) (s : List raft_member_id_t) :
    x ∈ set_erase a s ↔ x ∈ s ∧ x ≠ a := by
  simp [set_erase]

/-! ## `set_live`: the state it leaves -/

theorem set_live_of_at (api : raft_core P M) (c : dummy_raft_cluster_t P M)
    (member_id : raft_member_id_t) (live : live_t) (i : member_info_t P M)
    (h : map_at c.members member_id = some i) :
    set_live api c member_id live =
      some { members :=
               map_assign member_id (set_live_body api member_id live (i, c.alive_members)).1
                 c.members,
             alive_members := (set_live_body api member_id live (i, c.alive_members)).2 } := by
  simp only [set_live, h]

theorem set_live_some_iff (api : raft_core P M) (c c1 : dummy_raft_cluster_t P M)
    (member_id : raft_member_id_t) (live : live_t) :
    set_live api c member_id live = some c1 ↔
      ∃ i, map_at c.members member_id = some i ∧
        c1 = { members :=
                 map_assign member_id (set_live_body api member_id live (i, c.alive_members)).1
                   c.members,
               alive_members := (set_live_body api member_id live (i, c.alive_members)).2 } := by
  constructor
  · intro h
    cases hm : map_at c.members member_id with
    | none => simp [set_live, hm] at h
    | some i =>
      rw [set_live_of_at api c member_id live i hm] at h
      exact ⟨i, rfl, (Option.some.inj h).symm⟩
  · rintro ⟨i, hm, rfl⟩
    exact set_live_of_at api c member_id live i hm

/-- C1: for every cluster state, every member id present in the member map and every
target liveness, `set_live` completes and leaves the slot of that id in exactly the state
the target names: `alive` is member set and drainer set, `isolated` is member set and
drainer empty, `dead` is member empty and drainer empty. -/
theorem set_live_reaches_named_state (api : raft_core P M) (c : dummy_raft_cluster_t P M)
    (member_id : raft_member_id_t) (live : live_t) (i : member_info_t P M)
    (h : map_at c.members member_id = some i) :
    ∃ c1 i1, set_live api c member_id live = some c1 ∧
      map_at c1.members member_id = some i1 ∧
      (live = live_t.alive → i1.member.isSome = true ∧ i1.drainer.isSome = true) ∧
      (live = live_t.isolated → i1.member.isSome = true ∧ i1.drainer = none) ∧
      (live = live_t.dead → i1.member = none ∧ i1.drainer = none) := by
  obtain ⟨mid, st, mem, dr⟩ := i
  refine ⟨_, _, set_live_of_at api c member_id live _ h, map_at_assign_self _ _ _, ?_⟩
  cases live <;> cases mem <;> cases dr <;>
    simp [set_live_body, set_live_install, set_live_member, set_live_drain]

/-- C1 at the cluster `two_alive`: slot `1` is present and is taken to `dead`. -/
theorem set_live_reaches_named_state_witness :
    map_at two_alive.members 1 = some (sample_slot 1 2 true true) ∧
    ∃ c1 i1, set_live sample_core two_alive 1 live_t.dead = some c1 ∧
      map_at c1.members 1 = some i1 ∧
      (live_t.dead = live_t.alive → i1.member.isSome = true ∧ i1.drainer.isSome = true) ∧
      (live_t.dead = live_t.isolated → i1.member.isSome = true ∧ i1.drainer = none) ∧
      (live_t.dead = live_t.dead → i1.member = none ∧ i1.drainer = none) :=
  ⟨by decide,
    set_live_reaches_named_state sample_core two_alive 1 live_t.dead (sample_slot 1 2 true true)
      (by decide)⟩

/-! ## `do_rpc` -/

theorem block_cases (e : block_env) (interruptor : signal_t) :
    block e interruptor = outcome.returned () ∨
      block e interruptor = outcome.raised exc_t.interrupted_exc_t := by
  unfold block wait_interruptible
  by_cases h1 : e.sleep_draw = 0
  · cases h2 : e.pulsed interruptor <;> simp [h1]
  · simp [h1]

/-- C2: an isolated sender reaches an alive destination.  In the cluster built by the
constructor for two members with ids `1` and `2`, after `set_live(1, isolated)`, slot `1`
has a member and no drainer, and its `do_rpc` to `2` invokes the handler on the member of
`2` and returns `true`. -/
theorem isolated_sender_reaches_alive_destination :
    (dummy_raft_cluster_t.create sample_core 2 dummy_raft_state_t.fresh (fun k => k + 1)).bind
        (fun c => set_live sample_core c 1 live_t.isolated) = some one_isolated ∧
      map_at one_isolated.members 1 = some (sample_slot 1 1 true false) ∧
      (sample_slot 1 1 true false).member.isSome = true ∧
      (sample_slot 1 1 true false).drainer = none ∧
      do_rpc one_isolated (sample_slot 1 1 true false) 2 (fun _ _ => outcome.returned ())
          (signal_t.interruptor 0) calm calm =
        { result := outcome.returned true,
          calls := [((sample_slot 2 1 true true).member, signal_t.drain_signal 2)] } := by
  decide

/-- C3 as stated fails: with a destination in the map that has no drainer at the lookup,
`do_rpc` does not always return `false`.  In `one_isolated`, the call from slot `2` to
slot `1` whose second `block` is interrupted raises `interrupted_exc_t`. -/
theorem do_rpc_without_drainer_may_raise :
    ¬ ∀ (parent : dummy_raft_cluster_t Nat sample_member) (self other : member_info_t Nat sample_member)
        (dest : raft_member_id_t) (fn : Option sample_member → signal_t → outcome Unit)
        (interruptor : signal_t) (e1 e2 : block_env),
        block e1 interruptor = outcome.returned () →
        map_at parent.members dest = some other →
        other.drainer = none →
        (do_rpc parent self dest fn interruptor e1 e2).result = outcome.returned false ∧
          (do_rpc parent self dest fn interruptor e1 e2).calls = [] := by
  intro h
  have h1 := h one_isolated (sample_slot 2 1 true true) (sample_slot 1 1 true false) 1
    (fun _ _ => outcome.returned ()) (signal_t.interruptor 0) calm stormy
    (by decide) (by decide) (by decide)
  exact absurd h1.1 (by decide)

/-- C3, amended: once the first `block` has returned, for every destination in the member
map: if its slot has no drainer at the lookup, the handler is never invoked and `do_rpc`
returns `false` unless its second `block` is interrupted, in which case it raises
`interrupted_exc_t`; if the slot has a drainer, the handler is invoked exactly once, on
the destination's member pointer with the drain signal of the destination's drainer, and
`do_rpc` returns `true` unless the handler or the `block` after it raises
`interrupted_exc_t`, in which case it returns `false`. -/
theorem do_rpc_after_lookup (parent : dummy_raft_cluster_t P M) (self other : member_info_t P M)
    (dest : raft_member_id_t) (fn : Option M → signal_t → outcome Unit)
    (interruptor : signal_t) (e1 e2 : block_env)
    (hb : block e1 interruptor = outcome.returned ())
    (hm : map_at parent.members dest = some other) :
    (other.drainer = none →
      (do_rpc parent self dest fn interruptor e1 e2).calls = [] ∧
      (block e2 interruptor = outcome.returned () →
        (do_rpc parent self dest fn interruptor e1 e2).result = outcome.returned false) ∧
      (block e2 interruptor = outcome.raised exc_t.interrupted_exc_t →
        (do_rpc parent self dest fn interruptor e1 e2).result =
          outcome.raised exc_t.interrupted_exc_t) ∧
      ((do_rpc parent self dest fn interruptor e1 e2).result = outcome.returned false ∨
        (do_rpc parent self dest fn interruptor e1 e2).result =
          outcome.raised exc_t.interrupted_exc_t)) ∧
    (other.drainer.isSome = true →
      (do_rpc parent self dest fn interruptor e1 e2).calls =
        [(other.member, signal_t.drain_signal dest)] ∧
      (fn other.member (signal_t.drain_signal dest) = outcome.returned () →
        block e2 (signal_t.drain_signal dest) = outcome.returned () →
        (do_rpc parent self dest fn interruptor e1 e2).result = outcome.returned true) ∧
      (fn other.member (signal_t.drain_signal dest) = outcome.raised exc_t.interrupted_exc_t ∨
          (fn other.member (signal_t.drain_signal dest) = outcome.returned () ∧
            block e2 (signal_t.drain_signal dest) = outcome.raised exc_t.interrupted_exc_t) →
        (do_rpc parent self dest fn interruptor e1 e2).result = outcome.returned false) ∧
      ((do_rpc parent self dest fn interruptor e1 e2).result = outcome.returned true →
        fn other.member (signal_t.drain_signal dest) = outcome.returned () ∧
          block e2 (signal_t.drain_signal dest) = outcome.returned ())) := by
  constructor
  · intro hd
    have hd1 : ¬ other.drainer.isSome = true := by simp [hd]
    rcases block_cases e2 interruptor with h2 | h2 <;>
      simp [do_rpc, hb, hm, hd1, h2]
  · intro hd
    rcases block_cases e2 (signal_t.drain_signal dest) with h2 | h2 <;>
      cases hf : fn other.member (signal_t.drain_signal dest) with
      | returned u => cases u; simp [do_rpc, hb, hm, hd, h2, hf]
      | raised x => cases x <;> simp [do_rpc, hb, hm, hd, h2, hf]

/-- C3 amended, at `one_isolated`: slot `1` calls the alive slot `2`, no `block` waits. -/
theorem do_rpc_after_lookup_witness :
    (block calm (signal_t.interruptor 0) = outcome.returned () ∧
      map_at one_isolated.members 2 = some (sample_slot 2 1 true true)) ∧
    (do_rpc one_isolated (sample_slot 1 1 true false) 2 (fun _ _ => outcome.returned ())
        (signal_t.interruptor 0) calm calm).calls =
      [((sample_slot 2 1 true true).member, signal_t.drain_signal 2)] :=
  ⟨by decide,
    ((do_rpc_after_lookup one_isolated (sample_slot 1 1 true false) (sample_slot 2 1 true true) 2
      (fun _ _ => outcome.returned ()) (signal_t.interruptor 0) calm calm
      (by decide) (by decide)).2 (by decide)).1⟩

/-! ## `write_persistent_state` -/

/-- C5: for every previous stored state and every new persistent state, if
`write_persistent_state` returns normally the slot's `stored_state` is the given state;
if it is interrupted, `stored_state` is either the previous value or the given state, as
a whole.  It has no other outcome. -/
theorem write_persistent_state_whole (self : member_info_t P M) (persistent_state : P)
    (interruptor : signal_t) (e1 e2 : block_env) :
    ((write_persistent_state self persistent_state interruptor e1 e2).1 = outcome.returned () →
      (write_persistent_state self persistent_state interruptor e1 e2).2.stored_state =
        persistent_state) ∧
    ((write_persistent_state self persistent_state interruptor e1 e2).1 =
        outcome.raised exc_t.interrupted_exc_t →
      (write_persistent_state self persistent_state interruptor e1 e2).2.stored_state =
          self.stored_state ∨
        (write_persistent_state self persistent_state interruptor e1 e2).2.stored_state =
          persistent_state) ∧
    ((write_persistent_state self persistent_state interruptor e1 e2).1 = outcome.returned () ∨
      (write_persistent_state self persistent_state interruptor e1 e2).1 =
        outcome.raised exc_t.interrupted_exc_t) := by
  rcases block_cases e1 interruptor with h1 | h1 <;>
    rcases block_cases e2 interruptor with h2 | h2 <;>
      simp [write_persistent_state, h1, h2]

/-- C5 at a slot storing `1` that is asked to store `7`: interrupted in its second `block`,
the call raises and the slot stores `7`; the stored state is one of the two. -/
theorem write_persistent_state_whole_witness :
    (write_persistent_state (sample_slot 1 1 true true) 7 (signal_t.interruptor 0) calm stormy).1 =
        outcome.raised exc_t.interrupted_exc_t ∧
      ((write_persistent_state (sample_slot 1 1 true true) 7 (signal_t.interruptor 0) calm
            stormy).2.stored_state = (sample_slot 1 1 true true).stored_state ∨
        (write_persistent_state (sample_slot 1 1 true true) 7 (signal_t.interruptor 0) calm
            stormy).2.stored_state = 7) :=
  ⟨by decide,
    (write_persistent_state_whole (sample_slot 1 1 true true) 7 (signal_t.interruptor 0) calm
      stormy).2.1 (by decide)⟩

/-- The three ways `write_persistent_state` ends at that slot: interrupted before the
write, interrupted after it, and returning. -/
theorem write_persistent_state_outcomes :
    write_persistent_state (sample_slot 1 1 true true) 7 (signal_t.interruptor 0) stormy calm =
        (outcome.raised exc_t.interrupted_exc_t, sample_slot 1 1 true true) ∧
      write_persistent_state (sample_slot 1 1 true true) 7 (signal_t.interruptor 0) calm stormy =
        (outcome.raised exc_t.interrupted_exc_t,
          { sample_slot 1 1 true true with stored_state := 7 }) ∧
      write_persistent_state (sample_slot 1 1 true true) 7 (signal_t.interruptor 0) calm calm =
        (outcome.returned (), { sample_slot 1 1 true true with stored_state := 7 }) := by
  decide

/-! ## `dummy_raft_state_t` -/

theorem apply_changes_state (s : dummy_raft_state_t) (changes : List uuid_u) :
    (apply_changes s changes).state = s.state ++ changes := by
  induction changes generalizing s with
  | nil => simp [apply_changes]
  | cons c cs ih =>
    have h := ih (s.apply_change c)
    simp only [apply_changes, List.foldl_cons] at h ⊢
    rw [h]
    simp [dummy_raft_state_t.apply_change]

/-- C9: applying a sequence of changes in order with `apply_change` to a state `s` yields
the state whose vector is `s.state` followed by that sequence; and for every split of a
sequence into a first part `pre` and a rest `suf`, applying `pre` to a fresh state and
then replaying `suf` gives a state equal under `operator==` to applying the whole
sequence to the fresh state. -/
theorem snapshot_then_replay (s : dummy_raft_state_t) (changes pre suf : List uuid_u) :
    (apply_changes s changes).state = s.state ++ changes ∧
    dummy_raft_state_t.eq (apply_changes (apply_changes dummy_raft_state_t.fresh pre) suf)
      (apply_changes dummy_raft_state_t.fresh (pre ++ suf)) = true := by
  refine ⟨apply_changes_state s changes, ?_⟩
  simp [dummy_raft_state_t.eq, apply_changes_state]

/-! ## `set_live`: what it leaves alone -/

theorem set_live_body_stored_state (api : raft_core P M) (member_id : raft_member_id_t)
    (live : live_t) (i : member_info_t P M) (s : List raft_member_id_t) :
    (set_live_body api member_id live (i, s)).1.stored_state = i.stored_state ∧
      (set_live_body api member_id live (i, s)).1.member_id = i.member_id := by
  obtain ⟨mid, st, mem, dr⟩ := i
  cases live <;> cases mem <;> cases dr <;>
    simp [set_live_body, set_live_install, set_live_member, set_live_drain]

theorem set_live_body_member (api : raft_core P M) (member_id : raft_member_id_t)
    (live : live_t) (i : member_info_t P M) (s : List raft_member_id_t)
    (hl : live ≠ live_t.dead) :
    (i.member = none →
      (set_live_body api member_id live (i, s)).1.member =
        some (api.construct member_id ⟨member_id⟩ i.stored_state)) ∧
    (∀ m, i.member = some m → (set_live_body api member_id live (i, s)).1.member = some m) := by
  obtain ⟨mid, st, mem, dr⟩ := i
  cases live <;> cases mem <;> cases dr <;>
    simp_all [set_live_body, set_live_install, set_live_member, set_live_drain]

/-- C8: a completed `set_live` leaves the `stored_state` of every slot as it was and
leaves every slot other than the named one untouched; when it brings a dead slot to
`alive` or `isolated`, the new member is `construct member_id i i->stored_state`, built
from the member id, the pointer to the slot and the stored state the slot held; when the
slot already has a member and the target is `alive` or `isolated`, that member is kept. -/
theorem set_live_frame (api : raft_core P M) (c c1 : dummy_raft_cluster_t P M)
    (member_id : raft_member_id_t) (live : live_t)
    (h : set_live api c member_id live = some c1) :
    (∀ k, (map_at c1.members k).map (fun i => i.stored_state) =
        (map_at c.members k).map (fun i => i.stored_state)) ∧
    (∀ k, k ≠ member_id → map_at c1.members k = map_at c.members k) ∧
    (∃ i i1, map_at c.members member_id = some i ∧ map_at c1.members member_id = some i1 ∧
      (i.member = none → i.drainer = none → live ≠ live_t.dead →
        i1.member = some (api.construct member_id ⟨member_id⟩ i.stored_state)) ∧
      (∀ m, i.member = some m → live ≠ live_t.dead → i1.member = some m)) := by
  obtain ⟨i, hm, rfl⟩ := (set_live_some_iff api c c1 member_id live).1 h
  refine ⟨?_, ?_, i, _, hm, map_at_assign_self _ _ _, ?_, ?_⟩
  · intro k
    by_cases hk : k = member_id
    · subst hk
      simp [map_at_assign_self, hm, (set_live_body_stored_state api k live i c.alive_members).1]
    · simp [map_at_assign_ne _ _ _ _ hk]
  · intro k hk
    exact map_at_assign_ne _ _ _ _ hk
  · intro hn _ hl
    exact (set_live_body_member api member_id live i c.alive_members hl).1 hn
  · intro m hs hl
    exact (set_live_body_member api member_id live i c.alive_members hl).2 m hs

/-- C8 at `two_alive`: `set_live(1, isolated)` completes, giving `one_isolated` up to the
stored states. -/
theorem set_live_frame_witness :
    set_live sample_core two_alive 1 live_t.isolated =
        some { members := [(1, sample_slot 1 2 true false), (2, sample_slot 2 1 true true)],
               alive_members := [2] } ∧
      ∀ k, k ≠ 1 →
        map_at (dummy_raft_cluster_t.mk
            [(1, sample_slot 1 2 true false), (2, sample_slot 2 1 true true)] [2]).members k =
          map_at two_alive.members k :=
  ⟨by decide, (set_live_frame sample_core two_alive _ 1 live_t.isolated (by decide)).2.1⟩

/-! ## `check_invariants` -/

theorem map_at_some_key {V : Type} (m : List (raft_member_id_t × V)) (k : raft_member_id_t)
    (v : V) (h : map_at m k = some v) : k ∈ m.map Prod.fst := by
  induction m with
  | nil => simp [map_at] at h
  | cons hd tl ih =>
    obtain ⟨k1, v1⟩ := hd
    by_cases hk : k1 = k
    · simp [hk]
    · simp only [map_at, hk, if_false] at h
      exact List.mem_cons_of_mem _ (ih h)

theorem check_invariants_loop_no_wait (c : dummy_raft_cluster_t P M)
    (ks : List raft_member_id_t) (acc : invariant_check M) :
    check_invariants_loop no_wait ks c acc =
      (c, { member_ptrs := acc.member_ptrs ++
              (ks.filter (fun k => ((map_at c.members k).bind (fun i => i.member)).isSome)).map
                (fun k => (map_at c.members k).bind (fun i => i.member)),
            rwlock_acqs := acc.rwlock_acqs ++
              ks.filter (fun k => ((map_at c.members k).bind (fun i => i.member)).isSome) }) := by
  induction ks generalizing acc with
  | nil => simp [check_invariants_loop]
  | cons k ks ih =>
    unfold check_invariants_loop
    cases hm : map_at c.members k with
    | none => simp [hm, ih]
    | some i =>
      cases hmem : i.member with
      | none => simp [hm, hmem, ih]
      | some m =>
        have hg : rwlock_acq_read no_wait k c = c := rfl
        simp [hm, hmem, ih, hg]

/-- When no lock is waited for, `check_invariants` hands over exactly the members of the
slots whose member is set, none of them null, and holds one read lock for each such slot
and no other. -/
theorem check_invariants_without_wait (c : dummy_raft_cluster_t P M) :
    (check_invariants no_wait c).1 = c ∧
    (check_invariants no_wait c).2.member_ptrs =
      (check_invariants no_wait c).2.rwlock_acqs.map
        (fun k => (map_at c.members k).bind (fun i => i.member)) ∧
    (∀ p ∈ (check_invariants no_wait c).2.member_ptrs, p.isSome = true) ∧
    (∀ k, k ∈ (check_invariants no_wait c).2.rwlock_acqs ↔
      ∃ i, map_at c.members k = some i ∧ i.member.isSome = true) := by
  have h := check_invariants_loop_no_wait c (c.members.map Prod.fst)
    { member_ptrs := [], rwlock_acqs := [] }
  unfold check_invariants
  rw [h]
  refine ⟨rfl, by simp, ?_, ?_⟩
  · intro p hp
    simp only [List.nil_append, List.mem_map, List.mem_filter] at hp
    obtain ⟨k, ⟨_, hk⟩, rfl⟩ := hp
    exact hk
  · intro k
    simp only [List.nil_append, List.mem_filter]
    constructor
    · rintro ⟨_, hk⟩
      cases hm : map_at c.members k with
      | none => simp [hm] at hk
      | some i =>
        refine ⟨i, rfl, ?_⟩
        simpa [hm] using hk
    · rintro ⟨i, hm, hi⟩
      refine ⟨map_at_some_key c.members k i hm, ?_⟩
      simpa [hm] using hi

/-- C10: `check_invariants` can hand over a null pointer and hold a read lock on a dead
slot.  In `built_pair` a `try_change` proposes on slot `1`, which it does under the read
lock of `1`.  A `set_live(1, dead)` removes the drainer of `1` and stands in line for
the write lock (state `dying_one`).  Now `check_invariants` finds `member.has()` true
for slot `1` and waits for the read lock; the proposal ends, `set_live` destroys the
member (state `dead_one`), the read lock is granted and `member.get()` is null.  So
`member_ptrs` holds a null pointer for the dead slot `1`, and the lock of `1` is held. -/
theorem check_invariants_hands_null_pointer :
    try_change sample_core built_pair 99 =
        [event.get_leader 2 1, event.get_leader 1 1, event.propose 1 99] ∧
      set_live_states sample_core built_pair 1 live_t.dead =
        some [built_pair,
          { members := [(1, sample_slot 1 1 true true), (2, sample_slot 2 1 true true)],
            alive_members := [2] },
          dying_one, dead_one] ∧
      set_live sample_core dying_one 1 live_t.dead = some dead_one ∧
      check_invariants kill_one_in_wait dying_one =
        (dead_one,
          { member_ptrs := [none, (sample_slot 2 1 true true).member],
            rwlock_acqs := [1, 2] }) ∧
      (map_at dead_one.members 1).bind (fun i => i.member) = none := by
  decide

/-! ## `try_change` -/

theorem run_ask_leader (api : raft_core P M) (c : dummy_raft_cluster_t P M)
    (leader nl : raft_member_id_t) (ev : event)
    (h : run_on_member c leader (ask_leader api leader) = some (nl, ev)) :
    (∃ i, map_at c.members leader = some i ∧ i.member = none ∧ nl = nil_uuid ∧
        ev = event.null_member leader) ∨
      (∃ i m, map_at c.members leader = some i ∧ i.member = some m ∧ nl = api.get_leader m ∧
        ev = event.get_leader leader (api.get_leader m)) := by
  unfold run_on_member at h
  cases hm : map_at c.members leader with
  | none => simp [hm] at h
  | some i =>
    cases hmem : i.member with
    | none =>
      simp [hm, hmem, ask_leader] at h
      exact Or.inl ⟨i, rfl, hmem, h.1.symm, h.2.symm⟩
    | some m =>
      simp [hm, hmem, ask_leader] at h
      exact Or.inr ⟨i, m, rfl, hmem, h.1.symm, h.2.symm⟩

/-- One iteration of the loop of `try_change`, by cases. -/
theorem follow_redirects_cases (api : raft_core P M) (c : dummy_raft_cluster_t P M)
    (n : Nat) (leader : raft_member_id_t) :
    (is_nil leader = true ∧ follow_redirects api c n leader = ([], none)) ∨
    (is_nil leader = false ∧ run_on_member c leader (ask_leader api leader) = none ∧
      follow_redirects api c n leader = ([event.out_of_range leader], none)) ∨
    (∃ nl ev, is_nil leader = false ∧
      run_on_member c leader (ask_leader api leader) = some (nl, ev) ∧
      ((leader = nl ∧ follow_redirects api c n leader = ([ev], some leader)) ∨
       (leader ≠ nl ∧ n = 0 ∧ follow_redirects api c n leader = ([ev], none)) ∨
       (leader ≠ nl ∧ ∃ k, n = k + 1 ∧
          follow_redirects api c n leader =
            (ev :: (follow_redirects api c k nl).1, (follow_redirects api c k nl).2)))) := by
  by_cases hn : is_nil leader = true
  · left
    refine ⟨hn, ?_⟩
    unfold follow_redirects
    simp [hn]
  · right
    have hn1 : is_nil leader = false := by simpa using hn
    cases hr : run_on_member c leader (ask_leader api leader) with
    | none =>
      left
      refine ⟨hn1, rfl, ?_⟩
      unfold follow_redirects
      simp [hn1, hr]
    | some p =>
      obtain ⟨nl, ev⟩ := p
      right
      refine ⟨nl, ev, hn1, rfl, ?_⟩
      by_cases he : leader = nl
      · left
        refine ⟨he, ?_⟩
        subst he
        unfold follow_redirects
        simp [hn1, hr]
      · right
        cases n with
        | zero =>
          left
          refine ⟨he, rfl, ?_⟩
          unfold follow_redirects
          simp [hn1, hr, he]
        | succ k =>
          right
          refine ⟨he, k, rfl, ?_⟩
          rw [follow_redirects]
          simp [hn1, hr, he]

theorem follow_redirects_length (api : raft_core P M) (c : dummy_raft_cluster_t P M)
    (n : Nat) (leader : raft_member_id_t) :
    (follow_redirects api c n leader).1.length ≤ n + 1 := by
  induction n generalizing leader with
  | zero =>
    unfold follow_redirects
    split
    · simp
    · split
      · simp
      · split <;> simp
  | succ n ih =>
    unfold follow_redirects
    split
    · simp
    · split
      · simp
      · split
        · simp
        · simp only [List.length_cons]
          exact Nat.succ_le_succ (ih _)

theorem ask_leader_event (api : raft_core P M) (c : dummy_raft_cluster_t P M)
    (leader nl : raft_member_id_t) (ev : event)
    (h : run_on_member c leader (ask_leader api leader) = some (nl, ev)) :
    ev.is_propose = false ∧ ev.on_slot = leader := by
  rcases run_ask_leader api c leader nl ev h with ⟨i, _, _, _, rfl⟩ | ⟨i, m, _, _, _, rfl⟩ <;>
    simp [event.is_propose, event.on_slot]

theorem follow_redirects_events (api : raft_core P M) (c : dummy_raft_cluster_t P M)
    (n : Nat) (leader : raft_member_id_t) :
    (∀ ev ∈ (follow_redirects api c n leader).1, ev.is_propose = false) ∧
      (∀ ev, (follow_redirects api c n leader).1.head? = some ev → ev.on_slot = leader) := by
  induction n generalizing leader with
  | zero =>
    rcases follow_redirects_cases api c 0 leader with
      ⟨_, h⟩ | ⟨_, _, h⟩ | ⟨nl, ev, _, hr, ⟨_, h⟩ | ⟨_, _, h⟩ | ⟨_, k, hk, h⟩⟩
    · simp [h]
    · simp [h, event.is_propose, event.on_slot]
    · have := ask_leader_event api c leader nl ev hr
      simp [h, this]
    · have := ask_leader_event api c leader nl ev hr
      simp [h, this]
    · omega
  | succ n ih =>
    rcases follow_redirects_cases api c (n + 1) leader with
      ⟨_, h⟩ | ⟨_, _, h⟩ | ⟨nl, ev, _, hr, ⟨_, h⟩ | ⟨_, hk, h⟩ | ⟨_, k, hk, h⟩⟩
    · simp [h]
    · simp [h, event.is_propose, event.on_slot]
    · have := ask_leader_event api c leader nl ev hr
      simp [h, this]
    · omega
    · have hkn : k = n := by omega
      subst hkn
      have h1 := ask_leader_event api c leader nl ev hr
      have h2 := (ih nl).1
      rw [h]
      refine ⟨?_, ?_⟩
      · intro e he
        rcases List.mem_cons.1 he with rfl | he
        · exact h1.1
        · exact h2 e he
      · intro e he
        simp only [List.head?_cons, Option.some.injEq] at he
        subst he
        exact h1.2

/-- When the loop of `try_change` is left by `break` with leader `m`: the starting slot
and `m` have members, the member of `m` answered `m`, and every event of the loop is a
`get_leader()` call whose answer is not nil and names a slot with a member. -/
theorem follow_redirects_found (api : raft_core P M) (c : dummy_raft_cluster_t P M)
    (n : Nat) (leader m : raft_member_id_t)
    (hf : (follow_redirects api c n leader).2 = some m) :
    (leader ≠ nil_uuid ∧ ∃ i mem, map_at c.members leader = some i ∧ i.member = some mem) ∧
    (∃ i mem, map_at c.members m = some i ∧ i.member = some mem ∧ api.get_leader mem = m) ∧
    event.get_leader m m ∈ (follow_redirects api c n leader).1 ∧
    (∀ ev ∈ (follow_redirects api c n leader).1, ∃ s a, ev = event.get_leader s a ∧
      a ≠ nil_uuid ∧ ∃ i mem, map_at c.members a = some i ∧ i.member = some mem) := by
  have key : ∀ (leader nl : raft_member_id_t) (ev : event), is_nil leader = false →
      run_on_member c leader (ask_leader api leader) = some (nl, ev) → leader = nl →
      (leader ≠ nil_uuid ∧ ∃ i mem, map_at c.members leader = some i ∧ i.member = some mem ∧
        api.get_leader mem = leader ∧ ev = event.get_leader leader leader) := by
    intro leader nl ev hnil hr he
    have hne : leader ≠ nil_uuid := by
      intro h0
      simp [is_nil, h0] at hnil
    refine ⟨hne, ?_⟩
    rcases run_ask_leader api c leader nl ev hr with ⟨i, _, _, h0, _⟩ | ⟨i, mem, hm, hmem, hnl, hev⟩
    · exact absurd (he.trans h0) hne
    · refine ⟨i, mem, hm, hmem, ?_, ?_⟩
      · rw [← hnl, ← he]
      · rw [hev, ← hnl, ← he]
  induction n generalizing leader with
  | zero =>
    rcases follow_redirects_cases api c 0 leader with
      ⟨_, h⟩ | ⟨_, _, h⟩ | ⟨nl, ev, hnil, hr, ⟨he, h⟩ | ⟨_, _, h⟩ | ⟨_, k, hk, h⟩⟩
    · simp [h] at hf
    · simp [h] at hf
    · obtain ⟨hne, i, mem, hm, hmem, hgl, hev⟩ := key leader nl ev hnil hr he
      rw [h] at hf
      have hlm : leader = m := Option.some.inj hf
      subst hlm
      rw [h]
      refine ⟨⟨hne, i, mem, hm, hmem⟩, ⟨i, mem, hm, hmem, hgl⟩, by simp [hev], ?_⟩
      intro e he1
      simp only [List.mem_singleton] at he1
      exact ⟨leader, leader, by rw [he1, hev], hne, i, mem, hm, hmem⟩
    · simp [h] at hf
    · omega
  | succ n ih =>
    rcases follow_redirects_cases api c (n + 1) leader with
      ⟨_, h⟩ | ⟨_, _, h⟩ | ⟨nl, ev, hnil, hr, ⟨he, h⟩ | ⟨_, hk, h⟩ | ⟨hne1, k, hk, h⟩⟩
    · simp [h] at hf
    · simp [h] at hf
    · obtain ⟨hne, i, mem, hm, hmem, hgl, hev⟩ := key leader nl ev hnil hr he
      rw [h] at hf
      have hlm : leader = m := Option.some.inj hf
      subst hlm
      rw [h]
      refine ⟨⟨hne, i, mem, hm, hmem⟩, ⟨i, mem, hm, hmem, hgl⟩, by simp [hev], ?_⟩
      intro e he1
      simp only [List.mem_singleton] at he1
      exact ⟨leader, leader, by rw [he1, hev], hne, i, mem, hm, hmem⟩
    · omega
    · have hkn : k = n := by omega
      subst hkn
      rw [h] at hf
      obtain ⟨⟨hnl0, i1, mem1, hm1, hmem1⟩, hm, hin, hall⟩ := ih nl hf
      have hne : leader ≠ nil_uuid := by
        intro h0
        simp [is_nil, h0] at hnil
      rcases run_ask_leader api c leader nl ev hr with
        ⟨i, _, _, h0, _⟩ | ⟨i, mem, hml, hmeml, hnl, hev⟩
      · exact absurd h0 hnl0
      · rw [h]
        refine ⟨⟨hne, i, mem, hml, hmeml⟩, hm, List.mem_cons_of_mem _ hin, ?_⟩
        intro e he1
        rcases List.mem_cons.1 he1 with rfl | he1
        · exact ⟨leader, nl, by rw [hev, hnl], hnl0, i1, mem1, hm1, hmem1⟩
        · exact hall e he1

theorem find_alive_fold (l : List (raft_member_id_t × member_info_t P M))
    (init : raft_member_id_t) :
    l.foldl (fun leader pair => if pair.2.drainer.isSome = true then pair.1 else leader) init = init ∨
      ∃ pair ∈ l, pair.1 =
          l.foldl (fun leader pair => if pair.2.drainer.isSome = true then pair.1 else leader) init ∧
        pair.2.drainer.isSome = true := by
  induction l generalizing init with
  | nil => simp
  | cons hd tl ih =>
    rw [List.foldl_cons]
    by_cases hd1 : hd.2.drainer.isSome = true
    · rw [if_pos hd1]
      rcases ih hd.1 with h | ⟨pair, hp, he, hs⟩
      · right
        exact ⟨hd, List.mem_cons_self _ _, h.symm, hd1⟩
      · right
        exact ⟨pair, List.mem_cons_of_mem _ hp, he, hs⟩
    · rw [if_neg hd1]
      rcases ih init with h | ⟨pair, hp, he, hs⟩
      · left
        exact h
      · right
        exact ⟨pair, List.mem_cons_of_mem _ hp, he, hs⟩

theorem find_alive_spec (c : dummy_raft_cluster_t P M) :
    find_alive c = nil_uuid ∨
      ∃ pair ∈ c.members, pair.1 = find_alive c ∧ pair.2.drainer.isSome = true :=
  find_alive_fold c.members nil_uuid

theorem find_alive_none (c : dummy_raft_cluster_t P M)
    (h : ∀ pair ∈ c.members, pair.2.drainer = none) : find_alive c = nil_uuid := by
  rcases find_alive_spec c with h0 | ⟨pair, hp, _, hs⟩
  · exact h0
  · simp [h pair hp] at hs

/-- The two ways `try_change` ends: without a leader, its events are those of the loop;
with a leader `m`, they are followed by one proposal on `m`. -/
theorem try_change_cases (api : raft_core P M) (c : dummy_raft_cluster_t P M) (change : uuid_u) :
    ((follow_redirects api c 2 (find_alive c)).2 = none ∧
        try_change api c change = (follow_redirects api c 2 (find_alive c)).1) ∨
      ∃ m, (follow_redirects api c 2 (find_alive c)).2 = some m ∧
        try_change api c change =
          (follow_redirects api c 2 (find_alive c)).1 ++ [event.propose m change] := by
  cases hr : (follow_redirects api c 2 (find_alive c)).2 with
  | none =>
    left
    refine ⟨rfl, ?_⟩
    simp [try_change, hr]
  | some m =>
    right
    refine ⟨m, rfl, ?_⟩
    obtain ⟨_, ⟨i, mem, hm, hmem, _⟩, _, _⟩ := follow_redirects_found api c 2 (find_alive c) m hr
    simp [try_change, hr, run_on_member, hm, hmem]

/-- C6: for every cluster state and every behaviour of `get_leader`, `try_change` ends
after at most three iterations of its loop, the starting member and two redirects: it
calls `get_leader()` at most three times and has at most four events in all. -/
theorem try_change_bounded (api : raft_core P M) (c : dummy_raft_cluster_t P M)
    (change : uuid_u) :
    (follow_redirects api c 2 (find_alive c)).1.length ≤ 3 ∧
    ((try_change api c change).filter event.is_get_leader).length ≤ 3 ∧
    (try_change api c change).length ≤ 4 := by
  have hlen := follow_redirects_length api c 2 (find_alive c)
  have hfil := List.length_filter_le event.is_get_leader (follow_redirects api c 2 (find_alive c)).1
  refine ⟨hlen, ?_, ?_⟩
  · rcases try_change_cases api c change with ⟨_, h⟩ | ⟨m, _, h⟩
    · rw [h]
      omega
    · rw [h, List.filter_append]
      simp only [List.length_append]
      have : (List.filter event.is_get_leader [event.propose m change]).length = 0 := by
        simp [event.is_get_leader]
      omega
  · rcases try_change_cases api c change with ⟨_, h⟩ | ⟨m, _, h⟩
    · rw [h]
      omega
    · rw [h]
      simp only [List.length_append, List.length_singleton]
      omega

/-- Three calls of `get_leader()` do happen: in `two_alive` the two members name each other, and
`try_change` asks `2`, `1` and `2` again before giving up. -/
theorem try_change_on_a_cycle :
    try_change sample_core two_alive 99 =
      [event.get_leader 2 1, event.get_leader 1 2, event.get_leader 2 1] := by
  decide

/-- In `chain_to_one`, `try_change` starts at `3`, is sent to `2`, then to `1`, which names
itself, and proposes there. -/
theorem try_change_on_a_chain :
    try_change sample_core chain_to_one 99 =
      [event.get_leader 3 2, event.get_leader 2 1, event.get_leader 1 1,
        event.propose 1 99] := by
  decide

/-- C7: `try_change` calls `propose_change_if_leader` at most once, with the given
change, and only on a slot `m` whose member answered `m` to `get_leader()`; its first
event is on a slot that has a drainer; and it makes no proposal when no slot has a
drainer, when a `get_leader()` answer is nil or names a slot without member, or when no
member asked names itself. -/
theorem try_change_proposal (api : raft_core P M) (c : dummy_raft_cluster_t P M)
    (change : uuid_u) :
    ((try_change api c change).filter event.is_propose).length ≤ 1 ∧
    (∀ m ch, event.propose m ch ∈ try_change api c change →
      ch = change ∧ event.get_leader m m ∈ try_change api c change ∧
      ∃ i mem, map_at c.members m = some i ∧ i.member = some mem ∧ api.get_leader mem = m) ∧
    (∀ ev, (try_change api c change).head? = some ev →
      ∃ pair ∈ c.members, pair.1 = ev.on_slot ∧ pair.2.drainer.isSome = true) ∧
    ((∀ pair ∈ c.members, pair.2.drainer = none) → try_change api c change = []) ∧
    (∀ s a, event.get_leader s a ∈ try_change api c change →
      (a = nil_uuid ∨ ∃ i, map_at c.members a = some i ∧ i.member = none) →
      ∀ ev ∈ try_change api c change, ev.is_propose = false) ∧
    ((∀ s a, event.get_leader s a ∈ try_change api c change → s ≠ a) →
      ∀ ev ∈ try_change api c change, ev.is_propose = false) := by
  have hev := follow_redirects_events api c 2 (find_alive c)
  have hnoprop : (follow_redirects api c 2 (find_alive c)).1.filter event.is_propose = [] := by
    rw [List.filter_eq_nil_iff]
    intro e he
    simp [hev.1 e he]
  have hhead : ∀ ev, (follow_redirects api c 2 (find_alive c)).1.head? = some ev →
      ∃ pair ∈ c.members, pair.1 = ev.on_slot ∧ pair.2.drainer.isSome = true := by
    intro ev hh
    have hs := hev.2 ev hh
    rcases find_alive_spec c with h0 | ⟨pair, hp, he, hd⟩
    · rcases follow_redirects_cases api c 2 (find_alive c) with
        ⟨_, h⟩ | ⟨hn, _, _⟩ | ⟨_, _, hn, _⟩
      · simp [h] at hh
      · simp [is_nil, h0] at hn
      · simp [is_nil, h0] at hn
    · exact ⟨pair, hp, by rw [he, hs], hd⟩
  rcases try_change_cases api c change with ⟨hnone, h⟩ | ⟨m, hsome, h⟩
  · have hall : ∀ ev ∈ try_change api c change, ev.is_propose = false := by
      rw [h]
      exact hev.1
    refine ⟨?_, ?_, ?_, ?_, fun _ _ _ _ => hall, fun _ => hall⟩
    · rw [h, hnoprop]
      simp
    · intro m ch hm
      have := hall _ hm
      simp [event.is_propose] at this
    · rw [h]
      exact hhead
    · intro hno
      rcases follow_redirects_cases api c 2 (find_alive c) with
        ⟨_, h1⟩ | ⟨hn, _, _⟩ | ⟨_, _, hn, _⟩
      · rw [h, h1]
      · simp [is_nil, find_alive_none c hno] at hn
      · simp [is_nil, find_alive_none c hno] at hn
  · obtain ⟨⟨hne, _⟩, hmm, hin, hgood⟩ := follow_redirects_found api c 2 (find_alive c) m hsome
    have hmem_tr : ∀ e, e ∈ try_change api c change ↔
        e ∈ (follow_redirects api c 2 (find_alive c)).1 ∨ e = event.propose m change := by
      intro e
      rw [h]
      simp
    refine ⟨?_, ?_, ?_, ?_, ?_, ?_⟩
    · rw [h, List.filter_append, hnoprop]
      simp [event.is_propose]
    · intro m1 ch hp
      rcases (hmem_tr _).1 hp with hp1 | hp1
      · have := hev.1 _ hp1
        simp [event.is_propose] at this
      · injection hp1 with h1 h2
        subst h1
        subst h2
        exact ⟨rfl, (hmem_tr _).2 (Or.inl hin), hmm⟩
    · intro ev hh
      apply hhead
      rw [h] at hh
      cases hl : (follow_redirects api c 2 (find_alive c)).1 with
      | nil => simp [hl] at hin
      | cons x xs =>
        rw [hl] at hh
        simpa using hh
    · intro hno
      exact absurd (find_alive_none c hno) hne
    · intro s a hg hbad
      exfalso
      rcases (hmem_tr _).1 hg with hg1 | hg1
      · obtain ⟨s1, a1, he1, hne1, i1, mem1, hm1, hmem1⟩ := hgood _ hg1
        injection he1 with h1 h2
        subst h2
        rcases hbad with h0 | ⟨i, hm2, hnone⟩
        · exact hne1 h0
        · rw [hm1] at hm2
          have hi : i1 = i := Option.some.inj hm2
          subst hi
          rw [hmem1] at hnone
          exact Option.noConfusion hnone
      · exact event.noConfusion hg1
    · intro hself
      exact absurd rfl (hself m m ((hmem_tr _).2 (Or.inl hin)))

/-- C7 at `chain_to_one`: the proposal is made on `1`, whose member answered `1`. -/
theorem try_change_proposal_witness :
    event.propose 1 99 ∈ try_change sample_core chain_to_one 99 ∧
      (99 = 99 ∧ event.get_leader 1 1 ∈ try_change sample_core chain_to_one 99 ∧
        ∃ i mem, map_at chain_to_one.members 1 = some i ∧ i.member = some mem ∧
          sample_core.get_leader mem = 1) :=
  ⟨by decide, (try_change_proposal sample_core chain_to_one 99).2.1 1 99 (by decide)⟩

/-! ## `alive_members` and the drainers -/

theorem set_live_body_alive (api : raft_core P M) (member_id : raft_member_id_t)
    (live : live_t) (i : member_info_t P M) (s : List raft_member_id_t) :
    (∀ k, k ≠ member_id → (k ∈ (set_live_body api member_id live (i, s)).2 ↔ k ∈ s)) ∧
    ((member_id ∈ s ↔ i.drainer.isSome = true) →
      (member_id ∈ (set_live_body api member_id live (i, s)).2 ↔
        (set_live_body api member_id live (i, s)).1.drainer.isSome = true)) := by
  obtain ⟨mid, st, mem, dr⟩ := i
  constructor
  · intro k hk
    cases live <;> cases mem <;> cases dr <;>
      simp [set_live_body, set_live_install, set_live_member, set_live_drain, mem_set_insert,
        mem_set_erase, hk]
  · intro h
    cases live <;> cases mem <;> cases dr <;>
      simp_all [set_live_body, set_live_install, set_live_member, set_live_drain,
        mem_set_insert, mem_set_erase]

/-- A completed `set_live` keeps `alive_members` equal to the set of slots with a drainer. -/
theorem set_live_keeps_alive_members (api : raft_core P M) (c c1 : dummy_raft_cluster_t P M)
    (member_id : raft_member_id_t) (live : live_t)
    (h : set_live api c member_id live = some c1)
    (hinv : ∀ k, k ∈ c.alive_members ↔ ∃ i, map_at c.members k = some i ∧ i.drainer.isSome = true) :
    ∀ k, k ∈ c1.alive_members ↔ ∃ i, map_at c1.members k = some i ∧ i.drainer.isSome = true := by
  obtain ⟨i, hm, rfl⟩ := (set_live_some_iff api c c1 member_id live).1 h
  have hb := set_live_body_alive api member_id live i c.alive_members
  intro k
  by_cases hk : k = member_id
  · subst hk
    have h0 : k ∈ c.alive_members ↔ i.drainer.isSome = true := by
      rw [hinv k, hm]
      simp
    simp only [map_at_assign_self]
    rw [hb.2 h0]
    simp
  · simp only [map_at_assign_ne _ _ _ _ hk]
    rw [hb.1 k hk]
    exact hinv k

theorem add_member_spec (api : raft_core P M) (c : dummy_raft_cluster_t P M)
    (member_id : raft_member_id_t) (initial_state : P) :
    ∃ c1, add_member api c member_id initial_state = some c1 ∧
      c1.alive_members = set_insert member_id c.alive_members ∧
      map_at c1.members member_id =
        some { member_id := member_id, stored_state := initial_state,
               member := some (api.construct member_id ⟨member_id⟩ initial_state),
               drainer := some auto_drainer_t.mk } ∧
      ∀ k, k ≠ member_id → map_at c1.members k = map_at c.members k := by
  refine ⟨_, set_live_of_at api _ member_id live_t.alive _ (map_at_assign_self _ _ _), ?_, ?_, ?_⟩
  · simp [set_live_body, set_live_install, set_live_member, set_live_drain]
  · simp [map_at_assign_self, set_live_body, set_live_install, set_live_member, set_live_drain]
  · intro k hk
    simp [map_at_assign_ne _ _ _ _ hk]

theorem add_member_keeps_alive_members (api : raft_core P M) (c c1 : dummy_raft_cluster_t P M)
    (member_id : raft_member_id_t) (initial_state : P)
    (h : add_member api c member_id initial_state = some c1)
    (hinv : ∀ k, k ∈ c.alive_members ↔ ∃ i, map_at c.members k = some i ∧ i.drainer.isSome = true) :
    ∀ k, k ∈ c1.alive_members ↔ ∃ i, map_at c1.members k = some i ∧ i.drainer.isSome = true := by
  obtain ⟨c2, h2, ha, hs, ho⟩ := add_member_spec api c member_id initial_state
  rw [h] at h2
  have hc : c1 = c2 := Option.some.inj h2
  subst hc
  intro k
  rw [ha, mem_set_insert]
  by_cases hk : k = member_id
  · subst hk
    simp [hs]
  · rw [ho k hk, ← hinv k]
    simp [hk]

theorem set_insert_sorted (a : raft_member_id_t) (s : List raft_member_id_t)
    (hs : s.Pairwise (fun x y => x < y)) : (set_insert a s).Pairwise (fun x y => x < y) := by
  induction s with
  | nil => simp [set_insert]
  | cons b tl ih =>
    have hb := List.pairwise_cons.1 hs
    unfold set_insert
    by_cases h1 : a < b
    · rw [if_pos h1]
      refine List.pairwise_cons.2 ⟨?_, hs⟩
      intro x hx
      rcases List.mem_cons.1 hx with rfl | hx
      · exact h1
      · exact Nat.lt_trans h1 (hb.1 x hx)
    · rw [if_neg h1]
      by_cases h2 : a = b
      · rw [if_pos h2]
        exact hs
      · rw [if_neg h2]
        refine List.pairwise_cons.2 ⟨?_, ih hb.2⟩
        intro x hx
        rcases (mem_set_insert a x tl).1 hx with hxa | hx
        · rw [hxa]
          exact Nat.lt_of_le_of_ne (Nat.le_of_not_lt h1) (fun h => h2 h.symm)
        · exact hb.1 x hx

theorem set_insert_fold (l init : List raft_member_id_t) :
    (∀ x, x ∈ l.foldl (fun s member_id => set_insert member_id s) init ↔ x ∈ init ∨ x ∈ l) ∧
    (init.Pairwise (fun x y => x < y) →
      (l.foldl (fun s member_id => set_insert member_id s) init).Pairwise (fun x y => x < y)) := by
  induction l generalizing init with
  | nil => simp
  | cons a tl ih =>
    rw [List.foldl_cons]
    obtain ⟨h1, h2⟩ := ih (set_insert a init)
    refine ⟨?_, fun hs => h2 (set_insert_sorted a init hs)⟩
    intro x
    rw [h1 x, mem_set_insert]
    simp only [List.mem_cons]
    tauto

/-- The second loop of the constructor: `add_member` for each id of a list. -/
theorem add_members_fold (api : raft_core P M) (st : P) (l : List raft_member_id_t)
    (c : dummy_raft_cluster_t P M) :
    ∃ c1, l.foldlM (fun c member_id => add_member api c member_id st) c = some c1 ∧
      c1.alive_members = l.foldl (fun s member_id => set_insert member_id s) c.alive_members ∧
      (∀ k ∈ l, ∃ i, map_at c1.members k = some i ∧ i.member.isSome = true ∧
        i.drainer.isSome = true) ∧
      (∀ k, k ∉ l → map_at c1.members k = map_at c.members k) ∧
      ((∀ k, k ∈ c.alive_members ↔ ∃ i, map_at c.members k = some i ∧ i.drainer.isSome = true) →
        ∀ k, k ∈ c1.alive_members ↔
          ∃ i, map_at c1.members k = some i ∧ i.drainer.isSome = true) := by
  induction l generalizing c with
  | nil => exact ⟨c, rfl, rfl, by simp, by simp, fun h => h⟩
  | cons a tl ih =>
    obtain ⟨ca, hca, haa, hsa, hoa⟩ := add_member_spec api c a st
    obtain ⟨c1, hc1, ha1, hs1, ho1, hi1⟩ := ih ca
    refine ⟨c1, ?_, ?_, ?_, ?_, ?_⟩
    · rw [List.foldlM_cons, hca]
      exact hc1
    · rw [ha1, haa, List.foldl_cons]
    · intro k hk
      by_cases hkt : k ∈ tl
      · exact hs1 k hkt
      · have hka : k = a := by
          rcases List.mem_cons.1 hk with h | h
          · exact h
          · exact absurd h hkt
        subst hka
        refine ⟨_, (ho1 k hkt).trans hsa, ?_, ?_⟩ <;> simp
    · intro k hk
      have hka : k ≠ a := fun h => hk (h ▸ List.mem_cons_self _ _)
      have hkt : k ∉ tl := fun h => hk (List.mem_cons_of_mem _ h)
      rw [ho1 k hkt, hoa k hka]
    · intro hinv
      exact hi1 (add_member_keeps_alive_members api c ca a st hca hinv)

/-- C4: in every cluster state reached from the constructor by completed calls of
`set_live` and `join`, the set published through `get_connected_members` is exactly the
set of member ids whose slot has a drainer; and the constructor, given `num` distinct
generated ids, completes with all `num` ids in that set and every slot alive. -/
theorem alive_members_matches_drainers (api : raft_core P M) :
    (∀ c, reachable api c →
      ∀ k, k ∈ get_connected_members c ↔
        ∃ i, map_at c.members k = some i ∧ i.drainer.isSome = true) ∧
    (∀ (num : Nat) (initial_state : dummy_raft_state_t) (generate_uuid : Nat → raft_member_id_t),
      ((List.range num).map generate_uuid).Nodup →
      ∃ c, dummy_raft_cluster_t.create api num initial_state generate_uuid = some c ∧
        (get_connected_members c).length = num ∧
        ∀ j, j < num → generate_uuid j ∈ get_connected_members c ∧
          ∃ i, map_at c.members (generate_uuid j) = some i ∧ i.member.isSome = true ∧
            i.drainer.isSome = true) := by
  have hempty : ∀ k, k ∈ (dummy_raft_cluster_t.mk [] [] : dummy_raft_cluster_t P M).alive_members ↔
      ∃ i, map_at (dummy_raft_cluster_t.mk [] [] : dummy_raft_cluster_t P M).members k = some i ∧
        i.drainer.isSome = true := by
    intro k
    simp [map_at]
  constructor
  · intro c hc
    unfold get_connected_members
    induction hc with
    | create num initial_state generate_uuid c h =>
      obtain ⟨c1, hc1, _, _, _, hi⟩ := add_members_fold api
        (api.make_initial initial_state
          { voting_members := ((List.range num).map generate_uuid).foldl
              (fun s member_id => set_insert member_id s) [] })
        (((List.range num).map generate_uuid).foldl (fun s member_id => set_insert member_id s) [])
        { members := [], alive_members := [] }
      have h1 : some c = some c1 := by
        rw [← h, ← hc1]
        rfl
      rw [Option.some.inj h1]
      exact hi hempty
    | set_live c c1 member_id live _ h ih =>
      exact set_live_keeps_alive_members api c c1 member_id live h ih
    | join c c1 member_id _ h ih =>
      unfold join at h
      cases ha : add_member api c member_id api.make_join with
      | none => simp [ha] at h
      | some c2 =>
        simp [ha] at h
        subst h
        exact add_member_keeps_alive_members api c c2 member_id api.make_join ha ih
  · intro num initial_state generate_uuid hnodup
    obtain ⟨c1, hc1, ha, hs, _, _⟩ := add_members_fold api
      (api.make_initial initial_state
        { voting_members := ((List.range num).map generate_uuid).foldl
            (fun s member_id => set_insert member_id s) [] })
      (((List.range num).map generate_uuid).foldl (fun s member_id => set_insert member_id s) [])
      { members := [], alive_members := [] }
    have hvote := set_insert_fold ((List.range num).map generate_uuid) []
    have halive := set_insert_fold
      (((List.range num).map generate_uuid).foldl (fun s member_id => set_insert member_id s) []) []
    have hmem : ∀ x, x ∈ c1.alive_members ↔ x ∈ (List.range num).map generate_uuid := by
      intro x
      rw [ha, halive.1 x, hvote.1 x]
      simp
    have hsorted : c1.alive_members.Pairwise (fun x y => x < y) := by
      rw [ha]
      exact halive.2 List.Pairwise.nil
    have hnd : c1.alive_members.Nodup := hsorted.imp (fun h => Nat.ne_of_lt h)
    have hperm : c1.alive_members.Perm ((List.range num).map generate_uuid) :=
      (List.perm_ext_iff_of_nodup hnd hnodup).2 hmem
    refine ⟨c1, hc1, ?_, ?_⟩
    · unfold get_connected_members
      rw [hperm.length_eq]
      simp
    · intro j hj
      have hin : generate_uuid j ∈ (List.range num).map generate_uuid :=
        List.mem_map.2 ⟨j, List.mem_range.2 hj, rfl⟩
      refine ⟨(hmem _).2 hin, hs _ ?_⟩
      exact (hvote.1 _).2 (Or.inr hin)

/-- C4 at `one_isolated`: it is reached by the constructor over the ids `1` and `2`
followed by `set_live(1, isolated)`, and its published set is `[2]`, the one slot with a
drainer. -/
theorem alive_members_matches_drainers_witness :
    reachable sample_core one_isolated ∧
      ∀ k, k ∈ get_connected_members one_isolated ↔
        ∃ i, map_at one_isolated.members k = some i ∧ i.drainer.isSome = true :=
  ⟨reachable.set_live built_pair one_isolated 1 live_t.isolated
      (reachable.create 2 dummy_raft_state_t.fresh (fun k => k + 1) built_pair (by decide))
      (by decide),
    (alive_members_matches_drainers sample_core).1 one_isolated
      (reachable.set_live built_pair one_isolated 1 live_t.isolated
        (reachable.create 2 dummy_raft_state_t.fresh (fun k => k + 1) built_pair (by decide))
        (by decide))⟩

/-! ## `set_live`: the states it passes through -/

theorem set_live_trace_keeps_member (api : raft_core P M) (member_id : raft_member_id_t)
    (live : live_t) (st : member_info_t P M × List raft_member_id_t)
    (h : st.1.drainer.isSome = true → st.1.member.isSome = true) :
    ∀ s ∈ set_live_trace api member_id live st,
      s.1.drainer.isSome = true → s.1.member.isSome = true := by
  obtain ⟨⟨mid, ps, mem, dr⟩, al⟩ := st
  cases live <;> cases mem <;> cases dr <;>
    simp_all [set_live_trace, set_live_drain_steps, set_live_member_steps,
      set_live_install_steps]

theorem set_live_trace_last (api : raft_core P M) (member_id : raft_member_id_t)
    (live : live_t) (st : member_info_t P M × List raft_member_id_t) :
    (set_live_trace api member_id live st).getLastD st = set_live_body api member_id live st := by
  obtain ⟨⟨mid, ps, mem, dr⟩, al⟩ := st
  cases live <;> cases mem <;> cases dr <;>
    simp [set_live_trace, set_live_drain_steps, set_live_member_steps,
      set_live_install_steps, set_live_body, set_live_drain, set_live_member, set_live_install]

theorem set_live_trace_ordered (api : raft_core P M) (member_id : raft_member_id_t)
    (live : live_t) (st : member_info_t P M × List raft_member_id_t) :
    List.Chain (fun s s2 => ordered_write s.1 s2.1) st (set_live_trace api member_id live st) := by
  obtain ⟨⟨mid, ps, mem, dr⟩, al⟩ := st
  cases live <;> cases mem <;> cases dr <;>
    simp [set_live_trace, set_live_drain_steps, set_live_member_steps,
      set_live_install_steps, ordered_write]

theorem do_rpc_calls_have_member (parent : dummy_raft_cluster_t P M)
    (self : member_info_t P M) (dest : raft_member_id_t)
    (fn : Option M → signal_t → outcome Unit) (interruptor : signal_t) (e1 e2 : block_env)
    (h : drainer_has_member parent) :
    ∀ call ∈ (do_rpc parent self dest fn interruptor e1 e2).calls, call.1.isSome = true := by
  intro call hc
  unfold do_rpc at hc
  rcases block_cases e1 interruptor with h1 | h1
  · cases hm : map_at parent.members dest with
    | none => simp [h1, hm] at hc
    | some other =>
      by_cases hd : other.drainer.isSome = true
      · have hmem := h dest other hm hd
        have hcall : call = (other.member, signal_t.drain_signal dest) := by
          simp only [h1, hm, hd, if_true] at hc
          split at hc <;> simpa using hc
        rw [hcall]
        exact hmem
      · rcases block_cases e2 interruptor with h2 | h2 <;> simp [h1, hm, hd, h2] at hc
  · simp [h1] at hc

theorem set_live_states_chain (member_id : raft_member_id_t)
    (f : member_info_t P M × List raft_member_id_t → dummy_raft_cluster_t P M)
    (hf : ∀ s, map_at (f s).members member_id = some s.1)
    (l : List (member_info_t P M × List raft_member_id_t))
    (c0 : dummy_raft_cluster_t P M) (s0 : member_info_t P M × List raft_member_id_t)
    (h0 : map_at c0.members member_id = some s0.1)
    (hl : List.Chain (fun s s2 => ordered_write s.1 s2.1) s0 l) :
    List.Chain (fun c2 c3 => ∀ j j2, map_at c2.members member_id = some j →
      map_at c3.members member_id = some j2 → ordered_write j j2) c0 (l.map f) := by
  induction l generalizing c0 s0 with
  | nil => exact List.Chain.nil
  | cons a t ih =>
    obtain ⟨ha, ht⟩ := List.chain_cons.1 hl
    rw [List.map_cons]
    refine List.chain_cons.2 ⟨?_, ih (f a) a (hf a) ht⟩
    intro j j2 hj hj2
    rw [h0] at hj
    rw [hf a] at hj2
    rw [← Option.some.inj hj, ← Option.some.inj hj2]
    exact ha

/-- C11: starting from a state in which every slot with a drainer has a member, in every
state that `set_live` passes through, the one it starts from, the one after each of its
writes and so the one it ends in, every slot with a drainer has a member; from one such
state to the next the member of the named slot is destroyed only with the drainer already
removed, and the drainer is installed only with the member already created; and `do_rpc`
run in any of these states passes no null member pointer to a handler. -/
theorem set_live_states_keep_member (api : raft_core P M) (c : dummy_raft_cluster_t P M)
    (member_id : raft_member_id_t) (live : live_t) (i : member_info_t P M)
    (hm : map_at c.members member_id = some i) (hinv : drainer_has_member c) :
    ∃ states c1 cl, set_live_states api c member_id live = some states ∧
      set_live api c member_id live = some c1 ∧
      states.getLast? = some cl ∧ cl.alive_members = c1.alive_members ∧
      (∀ k, map_at cl.members k = map_at c1.members k) ∧
      (∀ c2 ∈ states, drainer_has_member c2) ∧
      List.Chain' (fun c2 c3 => ∀ j j2, map_at c2.members member_id = some j →
        map_at c3.members member_id = some j2 → ordered_write j j2) states ∧
      (∀ c2 ∈ states, ∀ (self : member_info_t P M) (dest : raft_member_id_t)
        (fn : Option M → signal_t → outcome Unit) (interruptor : signal_t) (e1 e2 : block_env),
        ∀ call ∈ (do_rpc c2 self dest fn interruptor e1 e2).calls, call.1.isSome = true) := by
  have hstates : set_live_states api c member_id live =
      some (c :: (set_live_trace api member_id live (i, c.alive_members)).map (fun s =>
        { members := map_assign member_id s.1 c.members, alive_members := s.2 })) := by
    simp only [set_live_states, hm]
  have hlast := set_live_trace_last api member_id live (i, c.alive_members)
  have hkeep := set_live_trace_keeps_member api member_id live (i, c.alive_members)
    (hinv member_id i hm)
  have hord := set_live_trace_ordered api member_id live (i, c.alive_members)
  have hall : ∀ c2 ∈ c :: (set_live_trace api member_id live (i, c.alive_members)).map (fun s =>
      ({ members := map_assign member_id s.1 c.members, alive_members := s.2 } :
        dummy_raft_cluster_t P M)), drainer_has_member c2 := by
    intro c2 hc2
    rcases List.mem_cons.1 hc2 with rfl | hc2
    · exact hinv
    · obtain ⟨s, hs, rfl⟩ := List.mem_map.1 hc2
      intro k j hk hd
      by_cases hkm : k = member_id
      · subst hkm
        rw [map_at_assign_self] at hk
        rw [← Option.some.inj hk] at hd ⊢
        exact hkeep s hs hd
      · rw [map_at_assign_ne _ _ _ _ hkm] at hk
        exact hinv k j hk hd
  have hend : ∃ cl, (c :: (set_live_trace api member_id live (i, c.alive_members)).map (fun s =>
      ({ members := map_assign member_id s.1 c.members, alive_members := s.2 } :
        dummy_raft_cluster_t P M))).getLast? = some cl ∧
      cl.alive_members = (set_live_body api member_id live (i, c.alive_members)).2 ∧
      ∀ k, map_at cl.members k =
        map_at (map_assign member_id (set_live_body api member_id live (i, c.alive_members)).1
          c.members) k := by
    rw [List.getLast?_cons, List.getLast?_map]
    rw [List.getLastD_eq_getLast?] at hlast
    cases hl : (set_live_trace api member_id live (i, c.alive_members)).getLast? with
    | none =>
      rw [hl] at hlast
      refine ⟨c, rfl, ?_, ?_⟩
      · rw [← hlast]
        rfl
      · intro k
        rw [← hlast]
        by_cases hkm : k = member_id
        · subst hkm
          rw [map_at_assign_self]
          exact hm
        · rw [map_at_assign_ne _ _ _ _ hkm]
    | some s =>
      rw [hl] at hlast
      refine ⟨_, rfl, ?_, ?_⟩
      · rw [← hlast]
        rfl
      · intro k
        rw [← hlast]
        rfl
  obtain ⟨cl, hcl, hal, hmap⟩ := hend
  refine ⟨_, _, cl, hstates, set_live_of_at api c member_id live i hm, hcl, hal, hmap, hall, ?_, ?_⟩
  · exact set_live_states_chain member_id _ (fun s => map_at_assign_self _ _ _) _ c
      (i, c.alive_members) hm hord
  · intro c2 hc2 self dest fn interruptor e1 e2
    exact do_rpc_calls_have_member c2 self dest fn interruptor e1 e2 (hall c2 hc2)

/-- C11 at `two_alive`, where both slots have a drainer and a member: while slot `1` is
taken to `dead`, every state passed through keeps a member in every slot with a drainer. -/
theorem set_live_states_keep_member_witness :
    map_at two_alive.members 1 = some (sample_slot 1 2 true true) ∧
      drainer_has_member two_alive ∧
      ∃ states, set_live_states sample_core two_alive 1 live_t.dead = some states ∧
        ∀ c2 ∈ states, drainer_has_member c2 :=
  have hinv : drainer_has_member two_alive := by
    intro k j hk hd
    simp only [two_alive, map_at] at hk
    split at hk
    · cases hk
      decide
    · split at hk
      · cases hk
        decide
      · cases hk
  ⟨by decide, hinv,
    let ⟨states, _, _, h1, _, _, _, _, h6, _⟩ :=
      set_live_states_keep_member sample_core two_alive 1 live_t.dead (sample_slot 1 2 true true)
        (by decide) hinv
    ⟨states, h1, h6⟩⟩

/-- The states passed through while slot `1` of `two_alive` is taken to `dead`: the id
leaves `alive_members`, then the drainer goes, then the member. -/
theorem set_live_states_alive_to_dead :
    set_live_states sample_core two_alive 1 live_t.dead =
      some [two_alive,
        { members := [(1, sample_slot 1 2 true true), (2, sample_slot 2 1 true true)],
          alive_members := [2] },
        { members := [(1, sample_slot 1 2 true false), (2, sample_slot 2 1 true true)],
          alive_members := [2] },
        { members := [(1, sample_slot 1 2 false false), (2, sample_slot 2 1 true true)],
          alive_members := [2] }] := by
  decide

/-- The states passed through while a dead slot `1` is taken to `alive`: the member is
created, then the drainer, then the id enters `alive_members`. -/
theorem set_live_states_dead_to_alive :
    set_live_states sample_core
        { members := [(1, sample_slot 1 2 false false), (2, sample_slot 2 1 true true)],
          alive_members := [2] } 1 live_t.alive =
      some [{ members := [(1, sample_slot 1 2 false false), (2, sample_slot 2 1 true true)],
              alive_members := [2] },
        { members := [(1, sample_slot 1 2 true false), (2, sample_slot 2 1 true true)],
          alive_members := [2] },
        { members := [(1, sample_slot 1 2 true true), (2, sample_slot 2 1 true true)],
          alive_members := [2] },
        two_alive] := by
  decide

theorem set_live_body_keeps_member (api : raft_core P M) (member_id : raft_member_id_t)
    (live : live_t) (st : member_info_t P M × List raft_member_id_t) :
    (set_live_body api member_id live st).1.drainer.isSome = true →
      (set_live_body api member_id live st).1.member.isSome = true := by
  obtain ⟨⟨mid, ps, mem, dr⟩, al⟩ := st
  cases live <;> cases mem <;> cases dr <;>
    simp [set_live_body, set_live_drain, set_live_member, set_live_install]

/-- Every state reached from the constructor by completed calls of `set_live` and `join`
has a member in every slot with a drainer. -/
theorem reachable_drainer_has_member (api : raft_core P M) (c : dummy_raft_cluster_t P M)
    (hc : reachable api c) : drainer_has_member c := by
  have hadd : ∀ (c0 c1 : dummy_raft_cluster_t P M) (member_id : raft_member_id_t) (st : P),
      add_member api c0 member_id st = some c1 → drainer_has_member c0 →
      drainer_has_member c1 := by
    intro c0 c1 member_id st h h0 k j hk hd
    obtain ⟨c2, h2, _, hs, ho⟩ := add_member_spec api c0 member_id st
    rw [h] at h2
    have hc12 : c1 = c2 := Option.some.inj h2
    subst hc12
    by_cases hkm : k = member_id
    · subst hkm
      rw [hs] at hk
      rw [← Option.some.inj hk]
      rfl
    · rw [ho k hkm] at hk
      exact h0 k j hk hd
  induction hc with
  | create num initial_state generate_uuid c h =>
    have hfold : ∀ (st : P) (l : List raft_member_id_t) (c0 c1 : dummy_raft_cluster_t P M),
        l.foldlM (fun c member_id => add_member api c member_id st) c0 = some c1 →
        drainer_has_member c0 → drainer_has_member c1 := by
      intro st l
      induction l with
      | nil =>
        intro c0 c1 h1 h0
        have h2 : c0 = c1 := Option.some.inj h1
        rw [← h2]
        exact h0
      | cons a t ih =>
        intro c0 c1 h1 h0
        rw [List.foldlM_cons] at h1
        obtain ⟨ca, hca, _⟩ := add_member_spec api c0 a st
        rw [hca] at h1
        exact ih ca c1 h1 (hadd c0 ca a st hca h0)
    refine hfold _ _ _ c h ?_
    intro k j hk
    simp [map_at] at hk
  | set_live c c1 member_id live _ h ih =>
    obtain ⟨i, hm, rfl⟩ := (set_live_some_iff api c c1 member_id live).1 h
    intro k j hk hd
    by_cases hkm : k = member_id
    · subst hkm
      rw [map_at_assign_self] at hk
      rw [← Option.some.inj hk] at hd ⊢
      exact set_live_body_keeps_member api k live (i, c.alive_members) hd
    · rw [map_at_assign_ne _ _ _ _ hkm] at hk
      exact ih k j hk hd
  | join c c1 member_id _ h ih =>
    unfold join at h
    cases ha : add_member api c member_id api.make_join with
    | none => simp [ha] at h
    | some c2 =>
      simp [ha] at h
      subst h
      exact hadd c c2 member_id api.make_join ha ih

end unittest
